import Mathlib

/-!
# H2M raw-event converter

A shallow embedding of `H2MEvent2StdEventConverter::Converting`
(`user/caribou/module/src/H2MEventConverter.cc`) together with the properties
of the conversion that the specification states.

The converter calls into the peary frame decoder (`caribou::H2MFrameDecoder`)
and reads pixel records through the accessors of `caribou::h2m_pixel_readout`.
Neither is part of this source tree, so the decoder, the constant
`ACQ_MODE_TOA` and the integer widths of the values they hand back are
parameters of the embedding (`Decoder`).  Unsigned machine arithmetic is
written on `Nat` with explicit reduction modulo a power of two.
-/

namespace H2M

/-! ## Data model -/

/-- The six values bound by
`auto [ts_trig, ts_sh_open, ts_sh_close, frameID, length, t0] = decoder.decodeHeader(rawdata)`. -/
structure Header where
  ts_trig : Nat
  ts_sh_open : Nat
  ts_sh_close : Nat
  frameID : Nat
  length : Nat
  t0 : Bool
  deriving DecidableEq, Repr

/-- A pixel record as the converter sees it: the values of the four accessors
`GetData()`, `GetMode()`, `GetToA()` and `GetToT()` that the loop body reads.
The class itself is declared in peary (`h2m_pixels.hpp`); the converter never
relates one accessor to another, so they are independent fields here. -/
structure h2m_pixel_readout where
  data : Nat
  mode : Nat
  toa : Nat
  tot : Nat
  deriving DecidableEq, Repr

/-- The decoded frame, `pearydata`: (column, row) keys with their pixel, listed
in the order in which `for (const auto &pixel : frame)` visits them.  Every
pixel is an `h2m_pixel_readout`, the class the H2M decoder creates, so that the
`dynamic_cast` in the loop body yields the record. -/
abbrev pearydata := List ((Nat × Nat) × h2m_pixel_readout)

/-- The collaborators of the converter that live outside this source tree.
`decodeHeader` and `decodeFrame` either return or throw (`Except.error`, the
message of the exception).  `tsBits` is the width of the unsigned type in which
`ts_sh_open * _100MHz_to_ps` is evaluated and `toaBits` the width of the type in
which `GetToA() * _100MHz_to_ps` is evaluated (32 when the left operand is no
wider than `unsigned int`, 64 when it is `uint64_t`). -/
structure Decoder where
  decodeHeader : List Nat → Except String Header
  decodeFrame : List Nat → Nat → Except String pearydata
  ACQ_MODE_TOA : Nat
  tsBits : Nat
  toaBits : Nat

/-- One call `plane.PushPixel(col, row, tot, timestamp)`. -/
structure Hit where
  col : Nat
  row : Nat
  tot : Nat
  timestamp : Nat
  deriving DecidableEq, Repr

/-- Modelled from the spec: `eudaq::StandardPlane` is declared outside this
source tree; the plane keeps its id, its two labels, its geometry and the hits
pushed to it, in push order. -/
structure StandardPlane where
  id : Nat
  type : String
  sensor : String
  xsize : Nat
  ysize : Nat
  hits : List Hit
  deriving DecidableEq, Repr

/-- Constructor `eudaq::StandardPlane plane(plane_id, "Caribou", "H2M")`. -/
def StandardPlane.create (id : Nat) (type sensor : String) : StandardPlane :=
  ⟨id, type, sensor, 0, 0, []⟩

/-- Source: `plane.SetSizeZS(w, h, npix)`: set the geometry and size the hit store to
`npix` blank entries. -/
def StandardPlane.SetSizeZS (p : StandardPlane) (w h npix : Nat) : StandardPlane :=
  { p with xsize := w, ysize := h, hits := List.replicate npix ⟨0, 0, 0, 0⟩ }

/-- Source: `plane.PushPixel(col, row, tot, timestamp)`: append one hit. -/
def StandardPlane.PushPixel (p : StandardPlane) (col row tot timestamp : Nat) :
    StandardPlane :=
  { p with hits := p.hits ++ [⟨col, row, tot, timestamp⟩] }

/-- Modelled from the spec: `eudaq::StandardEvent` is declared outside this
source tree; the output event carries its planes, begin and end time, event
number, detector type and tags. -/
structure StandardEvent where
  planes : List StandardPlane
  timeBegin : Nat
  timeEnd : Nat
  eventN : Nat
  detectorType : String
  tags : List (String × String)
  deriving DecidableEq, Repr

def StandardEvent.AddPlane (e : StandardEvent) (p : StandardPlane) : StandardEvent :=
  { e with planes := e.planes ++ [p] }

def StandardEvent.SetTimeBegin (e : StandardEvent) (t : Nat) : StandardEvent :=
  { e with timeBegin := t }

def StandardEvent.SetTimeEnd (e : StandardEvent) (t : Nat) : StandardEvent :=
  { e with timeEnd := t }

def StandardEvent.SetEventN (e : StandardEvent) (n : Nat) : StandardEvent :=
  { e with eventN := n }

def StandardEvent.SetDetectorType (e : StandardEvent) (s : String) : StandardEvent :=
  { e with detectorType := s }

/-- Source: `SetTag(key, value)`: the value stored under `key` is replaced. -/
def StandardEvent.SetTag (e : StandardEvent) (key value : String) : StandardEvent :=
  { e with tags := e.tags.filter (fun kv => kv.1 ≠ key) ++ [(key, value)] }

/-- Modelled from the spec: `eudaq::RawEvent` is declared outside this source
tree; a raw event exposes its event number, its binary blocks (byte vectors)
and its tags. -/
structure RawEvent where
  eventN : Nat
  blocks : List (List Nat)
  tags : List (String × String)
  deriving DecidableEq, Repr

def RawEvent.NumBlocks (ev : RawEvent) : Nat := ev.blocks.length

def RawEvent.GetBlock (ev : RawEvent) (i : Nat) : List Nat := ev.blocks.getD i []

/-- The input `d1`: either a raw event, or an event of another class, for
which `std::dynamic_pointer_cast<const eudaq::RawEvent>(d1)` is null. -/
inductive Event where
  | raw (ev : RawEvent)
  | other (tags : List (String × String))
  deriving DecidableEq, Repr

/-- Modelled from the spec: `eudaq::Configuration` is declared outside this
source tree; named integer values, read with a default. -/
structure Configuration where
  entries : List (String × Int)
  deriving DecidableEq, Repr

/-- Source: `conf->Get(key, default)`. -/
def Configuration.Get (c : Configuration) (key : String) (dflt : Int) : Int :=
  match c.entries.lookup key with
  | some v => v
  | none => dflt

/-- How a call of `Converting` ends: it returns a `bool`, an exception thrown
by the decoder leaves through it, or it runs into undefined behaviour (copying
bytes past the end of `rawdata`, or erasing six words of a vector that holds
fewer). -/
inductive Outcome where
  | returned (b : Bool)
  | threw (what : String)
  | undefinedBehaviour
  deriving DecidableEq, Repr

/-! ## The converter -/

/-- Reduction of an unsigned value to `w` bits. -/
def wrap (w n : Nat) : Nat := n % 2 ^ w

/-- The words that `rawdata` holds after
`rawdata.resize(data_length / sizeof(uint32_t)); memcpy(&rawdata[0], &datablock[0], data_length)`:
one per complete group of four bytes (`uint8_t`), least significant byte first. -/
def rawdataOf : List Nat → List Nat
  | b0 :: b1 :: b2 :: b3 :: rest =>
    (b0 % 256 + 256 * (b1 % 256) + 65536 * (b2 % 256) + 16777216 * (b3 % 256)) ::
      rawdataOf rest
  | _ => []

/-- The copy of the block into `rawdata`: the vector has room for
`data_length / 4` words while `memcpy` writes `data_length` bytes, so a block
whose length is not a multiple of four is copied past the end of the vector
(`none`). -/
def copyBlock (datablock : List Nat) : Option (List Nat) :=
  if datablock.length % 4 = 0 then some (rawdataOf datablock) else none

/-- Source: `rawdata.erase(rawdata.begin(), rawdata.begin() + 6)`; `none` when the
vector has fewer than six words, where the range lies outside the vector. -/
def eraseHeader (rawdata : List Nat) : Option (List Nat) :=
  if 6 ≤ rawdata.length then some (rawdata.drop 6) else none

/-- Source: `int _100MHz_to_ps = 10000`. -/
def _100MHz_to_ps : Nat := 10000

/-- Source: `uint64_t frameStart = ts_sh_open * _100MHz_to_ps`. -/
def frameStart (dec : Decoder) (h : Header) : Nat :=
  wrap 64 (wrap dec.tsBits (h.ts_sh_open * _100MHz_to_ps))

/-- Source: `uint64_t frameEnd = ts_sh_close * _100MHz_to_ps`. -/
def frameEnd (dec : Decoder) (h : Header) : Nat :=
  wrap 64 (wrap dec.tsBits (h.ts_sh_close * _100MHz_to_ps))

/-- The timestamp of one hit:
`GetMode() == ACQ_MODE_TOA ? frameEnd - GetToA() * _100MHz_to_ps : (frameStart + frameEnd) / 2`,
evaluated in `uint64_t`. -/
def pixelTimestamp (dec : Decoder) (fStart fEnd : Nat) (p : h2m_pixel_readout) : Nat :=
  if p.mode = dec.ACQ_MODE_TOA then
    wrap 64 (fEnd + 2 ^ 64 - wrap 64 (wrap dec.toaBits (p.toa * _100MHz_to_ps)))
  else
    wrap 64 (fStart + fEnd) / 2

/-- The loop `for (const auto &pixel : frame)`: a pixel whose data is zero is
skipped, every other one is pushed to the plane. -/
def pushPixels (dec : Decoder) (fStart fEnd : Nat) : pearydata → StandardPlane → StandardPlane
  | [], plane => plane
  | ((col, row), pixHit) :: rest, plane =>
    if pixHit.data = 0 then
      pushPixels dec fStart fEnd rest plane
    else
      pushPixels dec fStart fEnd rest
        (plane.PushPixel col row pixHit.tot (pixelTimestamp dec fStart fEnd pixHit))

/-- The loop `for (const auto &tag : d1->GetTags()) d2->SetTag(tag.first, tag.second)`. -/
def copyTags : List (String × String) → StandardEvent → StandardEvent
  | [], d2 => d2
  | (k, v) :: rest, d2 => copyTags rest (d2.SetTag k v)

/-- Source: `uint32_t plane_id = conf->Get("plane_id", 0)`. -/
def plane_id (conf : Configuration) : Nat := (conf.Get "plane_id" 0 % 2 ^ 32).toNat

/-- Source: `uint8_t acq_mode = conf->Get("acq_mode", 0x1)`. -/
def acq_mode (conf : Configuration) : Nat := (conf.Get "acq_mode" 1 % 2 ^ 8).toNat

/-- Source: `H2MEvent2StdEventConverter::Converting(d1, d2, conf)`: the way the call
ends and the output event `d2` as the call leaves it. -/
def Converting (dec : Decoder) (d1 : Event) (d2 : StandardEvent) (conf : Configuration) :
    Outcome × StandardEvent :=
  match d1 with
  | .other _ => (.returned false, d2)
  | .raw ev =>
    let plane_id := plane_id conf
    let acq_mode := acq_mode conf
    if ev.NumBlocks = 1 then
      let datablock := ev.GetBlock 0
      match copyBlock datablock with
      | none => (.undefinedBehaviour, d2)
      | some rawdata =>
        match dec.decodeHeader rawdata with
        | .error what => (.threw what, d2)
        | .ok hdr =>
          if hdr.t0 = false ∨ hdr.ts_sh_close < hdr.ts_sh_open then
            (.returned false, d2)
          else
            match eraseHeader rawdata with
            | none => (.undefinedBehaviour, d2)
            | some payload =>
              match dec.decodeFrame payload acq_mode with
              | .error what => (.threw what, d2)
              | .ok frame =>
                let plane := (StandardPlane.create plane_id "Caribou" "H2M").SetSizeZS 64 16 0
                let fStart := frameStart dec hdr
                let fEnd := frameEnd dec hdr
                let plane := pushPixels dec fStart fEnd frame plane
                let d2 := d2.AddPlane plane
                let d2 := d2.SetTimeBegin fStart
                let d2 := d2.SetTimeEnd fEnd
                let d2 := d2.SetEventN hdr.frameID
                let d2 := d2.SetDetectorType "H2M"
                let d2 := copyTags ev.tags d2
                (.returned true, d2)
    else
      (.returned false, d2)

/-! ## Observations on a run -/

/-- All hits held by a list of planes, plane after plane. -/
def hitsOf : List StandardPlane → List Hit
  | [] => []
  | p :: ps => p.hits ++ hitsOf ps

/-- The hits that a run pushed: those of the planes that the output event
holds after the run beyond the planes it held before. -/
def pushedHits (before after : StandardEvent) : List Hit :=
  hitsOf (after.planes.drop before.planes.length)

/-- The decoded records that the loop does not skip. -/
def hitRecords (frame : pearydata) : pearydata :=
  frame.filter (fun e => e.2.data ≠ 0)

/-- Each hit that a run on a raw event pushed, next to the decoded record it was
made from: the hits in push order against the records the loop does not skip. -/
def emitted (dec : Decoder) (ev : RawEvent) (d2 : StandardEvent) (conf : Configuration)
    (frame : pearydata) : List (Hit × ((Nat × Nat) × h2m_pixel_readout)) :=
  (pushedHits d2 (Converting dec (.raw ev) d2 conf).2).zip (hitRecords frame)

/-- A header passes the gate `t0 == false || ts_sh_close < ts_sh_open`. -/
def accepted (hdr : Header) : Prop :=
  hdr.t0 = true ∧ hdr.ts_sh_open ≤ hdr.ts_sh_close

instance (hdr : Header) : Decidable (accepted hdr) := by
  unfold accepted; infer_instance

/-- A decoder that hands back the given header and frame whatever the words
are; used to run the converter on concrete frames. -/
def fixedDecoder (hdr : Header) (frame : pearydata) (tsBits toaBits : Nat) : Decoder :=
  { decodeHeader := fun _ => .ok hdr
    decodeFrame := fun _ _ => .ok frame
    ACQ_MODE_TOA := 1
    tsBits := tsBits
    toaBits := toaBits }

/-- A block of 24 zero bytes followed by nothing: six header words, no payload. -/
def headerOnlyBlock : List Nat := List.replicate 24 0

/-- A raw event with the single block `headerOnlyBlock` and no tags. -/
def headerOnlyEvent : RawEvent := ⟨0, [headerOnlyBlock], []⟩

/-- An output event nothing was written to. -/
def blankEvent : StandardEvent := ⟨[], 0, 0, 0, "", []⟩

/-- A configuration without entries: both keys take their defaults. -/
def defaultConf : Configuration := ⟨[]⟩

/-- A decoder for trying the converter on concrete blocks: the header takes one
field from each of the first six words and a buffer with fewer words is an
error; the frame has one pixel per payload word, whose value serves as data,
ToA and ToT alike, and a mode above 1 is an error.  It stands in for the peary
decoder in examples only. -/
def sampleDecoder : Decoder :=
  { decodeHeader := fun words =>
      match words with
      | a :: b :: c :: d :: e :: f :: _ => .ok ⟨a, b, c, d, e, decide (f ≠ 0)⟩
      | _ => .error "header needs six words"
    decodeFrame := fun words mode =>
      if mode ≤ 1 then
        .ok (words.enum.map (fun iw => ((iw.1 % 64, iw.1 / 64), ⟨iw.2, mode, iw.2, iw.2⟩)))
      else
        .error "unsupported acquisition mode"
    ACQ_MODE_TOA := 1
    tsBits := 64
    toaBits := 64 }

/-- The little-endian bytes of a list of small words (each below 256). -/
def bytesOfSmall : List Nat → List Nat
  | [] => []
  | w :: ws => w :: 0 :: 0 :: 0 :: bytesOfSmall ws

/-- A raw event with one block holding the given small words, no tags. -/
def eventOfWords (words : List Nat) : RawEvent := ⟨0, [bytesOfSmall words], []⟩

/-- A configuration that selects acquisition mode `m`. -/
def confMode (m : Int) : Configuration := ⟨[("acq_mode", m)]⟩

/-- The plane that an accepted frame adds to the output event. -/
def framePlane (dec : Decoder) (conf : Configuration) (hdr : Header) (frame : pearydata) :
    StandardPlane :=
  { id := plane_id conf, type := "Caribou", sensor := "H2M", xsize := 64, ysize := 16,
    hits := (hitRecords frame).map (fun e =>
      ⟨e.1.1, e.1.2, e.2.tot, pixelTimestamp dec (frameStart dec hdr) (frameEnd dec hdr) e.2⟩) }

/-! ## Lemmas -/

theorem rawdataOf_length : ∀ (n : Nat) (bytes : List Nat), bytes.length = n →
    (rawdataOf bytes).length = n / 4 := by
  intro n
  induction n using Nat.strong_induction_on with
  | _ n ih =>
    intro bytes hn
    match bytes, hn with
    | [], hn => simp at hn; subst hn; simp [rawdataOf]
    | [_], hn => simp at hn; subst hn; simp [rawdataOf]
    | [_, _], hn => simp at hn; subst hn; simp [rawdataOf]
    | [_, _, _], hn => simp at hn; subst hn; simp [rawdataOf]
    | _ :: _ :: _ :: _ :: rest, hn =>
      simp only [List.length_cons] at hn
      have h := ih rest.length (by omega) rest rfl
      simp only [rawdataOf, List.length_cons, h]
      omega

theorem pushPixels_eq (dec : Decoder) (fStart fEnd : Nat) :
    ∀ (frame : pearydata) (plane : StandardPlane),
      pushPixels dec fStart fEnd frame plane =
        { plane with hits := plane.hits ++ (hitRecords frame).map (fun e =>
            ⟨e.1.1, e.1.2, e.2.tot, pixelTimestamp dec fStart fEnd e.2⟩) } := by
  intro frame
  induction frame with
  | nil => intro plane; simp [pushPixels, hitRecords]
  | cons e rest ih =>
    intro plane
    obtain ⟨⟨col, row⟩, pixHit⟩ := e
    by_cases hz : pixHit.data = 0
    · simp [pushPixels, hitRecords, hz, ih] 
    · simp [pushPixels, hitRecords, hz, ih, StandardPlane.PushPixel]

theorem copyTags_planes : ∀ (tags : List (String × String)) (d2 : StandardEvent),
    (copyTags tags d2).planes = d2.planes ∧ (copyTags tags d2).timeBegin = d2.timeBegin ∧
    (copyTags tags d2).timeEnd = d2.timeEnd ∧ (copyTags tags d2).eventN = d2.eventN ∧
    (copyTags tags d2).detectorType = d2.detectorType := by
  intro tags
  induction tags with
  | nil => intro d2; simp [copyTags]
  | cons kv rest ih =>
    intro d2
    obtain ⟨k, v⟩ := kv
    simpa [copyTags, StandardEvent.SetTag] using ih (d2.SetTag k v)

theorem Converting_rejected (dec : Decoder) (ev : RawEvent) (d2 : StandardEvent)
    (conf : Configuration) (block : List Nat) (hdr : Header)
    (hb : ev.blocks = [block]) (hw : block.length % 4 = 0)
    (hh : dec.decodeHeader (rawdataOf block) = .ok hdr)
    (hrej : hdr.t0 = false ∨ hdr.ts_sh_close < hdr.ts_sh_open) :
    Converting dec (.raw ev) d2 conf = (.returned false, d2) := by
  simp [Converting, RawEvent.NumBlocks, RawEvent.GetBlock, copyBlock, hb, hw, hh, hrej]

theorem Converting_frame_ok (dec : Decoder) (ev : RawEvent) (d2 : StandardEvent)
    (conf : Configuration) (block : List Nat) (hdr : Header) (frame : pearydata)
    (hb : ev.blocks = [block]) (hw : block.length % 4 = 0)
    (hh : dec.decodeHeader (rawdataOf block) = .ok hdr)
    (hacc : accepted hdr) (hlen : 6 ≤ (rawdataOf block).length)
    (hf : dec.decodeFrame ((rawdataOf block).drop 6) (acq_mode conf) = .ok frame) :
    Converting dec (.raw ev) d2 conf =
      (.returned true,
        copyTags ev.tags
          { planes := d2.planes ++ [framePlane dec conf hdr frame],
            timeBegin := frameStart dec hdr, timeEnd := frameEnd dec hdr,
            eventN := hdr.frameID, detectorType := "H2M", tags := d2.tags }) := by
  obtain ⟨ht0, hord⟩ := hacc
  have hgate : ¬ (hdr.t0 = false ∨ hdr.ts_sh_close < hdr.ts_sh_open) := by
    simp [ht0, hord]
  simp only [Converting, RawEvent.NumBlocks, RawEvent.GetBlock, hb, List.length_singleton,
    if_true, List.getD_cons_zero, copyBlock, hw, hh, hgate, if_false, eraseHeader, hlen, hf,
    pushPixels_eq]
  simp [framePlane, StandardPlane.create, StandardPlane.SetSizeZS, StandardEvent.AddPlane,
    StandardEvent.SetTimeBegin, StandardEvent.SetTimeEnd, StandardEvent.SetEventN,
    StandardEvent.SetDetectorType]

theorem Converting_frame_throws (dec : Decoder) (ev : RawEvent) (d2 : StandardEvent)
    (conf : Configuration) (block : List Nat) (hdr : Header) (what : String)
    (hb : ev.blocks = [block]) (hw : block.length % 4 = 0)
    (hh : dec.decodeHeader (rawdataOf block) = .ok hdr)
    (hacc : accepted hdr) (hlen : 6 ≤ (rawdataOf block).length)
    (hf : dec.decodeFrame ((rawdataOf block).drop 6) (acq_mode conf) = .error what) :
    Converting dec (.raw ev) d2 conf = (.threw what, d2) := by
  obtain ⟨ht0, hord⟩ := hacc
  have hgate : ¬ (hdr.t0 = false ∨ hdr.ts_sh_close < hdr.ts_sh_open) := by
    simp [ht0, hord]
  simp only [Converting, RawEvent.NumBlocks, RawEvent.GetBlock, hb, List.length_singleton,
    if_true, List.getD_cons_zero, copyBlock, hw, hh, hgate, if_false, eraseHeader, hlen, hf]

theorem hitsOf_drop_append (ps : List StandardPlane) (p : StandardPlane) :
    hitsOf ((ps ++ [p]).drop ps.length) = p.hits := by
  simp [hitsOf]

theorem pushedHits_frame_ok (dec : Decoder) (ev : RawEvent) (d2 : StandardEvent)
    (conf : Configuration) (block : List Nat) (hdr : Header) (frame : pearydata)
    (hb : ev.blocks = [block]) (hw : block.length % 4 = 0)
    (hh : dec.decodeHeader (rawdataOf block) = .ok hdr)
    (hacc : accepted hdr) (hlen : 6 ≤ (rawdataOf block).length)
    (hf : dec.decodeFrame ((rawdataOf block).drop 6) (acq_mode conf) = .ok frame) :
    pushedHits d2 (Converting dec (.raw ev) d2 conf).2 =
      (hitRecords frame).map (fun e =>
        ⟨e.1.1, e.1.2, e.2.tot,
          pixelTimestamp dec (frameStart dec hdr) (frameEnd dec hdr) e.2⟩) := by
  rw [Converting_frame_ok dec ev d2 conf block hdr frame hb hw hh hacc hlen hf]
  simp only [pushedHits, (copyTags_planes _ _).1, hitsOf_drop_append, framePlane]

theorem wrap_of_lt {w n : Nat} (h : n < 2 ^ w) : wrap w n = n :=
  Nat.mod_eq_of_lt h

theorem wrap_lt (w n : Nat) : wrap w n < 2 ^ w :=
  Nat.mod_lt _ (Nat.pow_pos (by decide))

theorem mem_zip_map {α β : Type} (f : β → α) :
    ∀ (l : List β) (p : α × β), p ∈ (l.map f).zip l → p.2 ∈ l ∧ p.1 = f p.2 := by
  intro l
  induction l with
  | nil => intro p hp; simp at hp
  | cons b rest ih =>
    intro p hp
    simp only [List.map_cons, List.zip_cons_cons, List.mem_cons] at hp
    rcases hp with rfl | hp
    · simp
    · have := ih p hp
      exact ⟨List.mem_cons_of_mem _ this.1, this.2⟩

theorem mem_emitted (dec : Decoder) (ev : RawEvent) (d2 : StandardEvent)
    (conf : Configuration) (block : List Nat) (hdr : Header) (frame : pearydata)
    (hb : ev.blocks = [block]) (hw : block.length % 4 = 0)
    (hh : dec.decodeHeader (rawdataOf block) = .ok hdr)
    (hacc : accepted hdr) (hlen : 6 ≤ (rawdataOf block).length)
    (hf : dec.decodeFrame ((rawdataOf block).drop 6) (acq_mode conf) = .ok frame)
    (p : Hit × ((Nat × Nat) × h2m_pixel_readout)) (hp : p ∈ emitted dec ev d2 conf frame) :
    p.2 ∈ frame ∧ p.2.2.data ≠ 0 ∧
    p.1 = ⟨p.2.1.1, p.2.1.2, p.2.2.tot,
      pixelTimestamp dec (frameStart dec hdr) (frameEnd dec hdr) p.2.2⟩ := by
  unfold emitted at hp
  rw [pushedHits_frame_ok dec ev d2 conf block hdr frame hb hw hh hacc hlen hf] at hp
  have h := mem_zip_map _ _ p hp
  have hm : p.2 ∈ frame ∧ p.2.2.data ≠ 0 := by
    have := h.1
    simpa [hitRecords] using this
  exact ⟨hm.1, hm.2, h.2⟩

theorem pixelTimestamp_toa (dec : Decoder) (fStart fEnd : Nat) (p : h2m_pixel_readout)
    (hmode : p.mode = dec.ACQ_MODE_TOA) (hfit : p.toa * 10000 < 2 ^ dec.toaBits)
    (hle : p.toa * 10000 ≤ fEnd) (hend : fEnd < 2 ^ 64) :
    pixelTimestamp dec fStart fEnd p = fEnd - p.toa * 10000 := by
  have h1 : wrap dec.toaBits (p.toa * 10000) = p.toa * 10000 := wrap_of_lt hfit
  have h2 : wrap 64 (p.toa * 10000) = p.toa * 10000 := wrap_of_lt (by omega)
  simp only [pixelTimestamp, hmode, if_true, _100MHz_to_ps, h1, h2]
  unfold wrap
  have h64 : (2 : Nat) ^ 64 = 18446744073709551616 := by norm_num
  rw [h64] at hend ⊢
  omega

theorem pixelTimestamp_tot (dec : Decoder) (fStart fEnd : Nat) (p : h2m_pixel_readout)
    (hmode : p.mode ≠ dec.ACQ_MODE_TOA) :
    pixelTimestamp dec fStart fEnd p = wrap 64 (fStart + fEnd) / 2 := by
  simp [pixelTimestamp, hmode]

theorem frame_times_exact (dec : Decoder) (hdr : Header) (hord : hdr.ts_sh_open ≤ hdr.ts_sh_close)
    (hw : dec.tsBits ≤ 64) (hfit : hdr.ts_sh_close * 10000 < 2 ^ dec.tsBits) :
    frameStart dec hdr = hdr.ts_sh_open * 10000 ∧ frameEnd dec hdr = hdr.ts_sh_close * 10000 := by
  have hpow : 2 ^ dec.tsBits ≤ 2 ^ 64 := Nat.pow_le_pow_right (by decide) hw
  have hopen : hdr.ts_sh_open * 10000 < 2 ^ dec.tsBits := by
    have : hdr.ts_sh_open * 10000 ≤ hdr.ts_sh_close * 10000 := Nat.mul_le_mul_right _ hord
    omega
  constructor
  · simp only [frameStart, _100MHz_to_ps]
    rw [wrap_of_lt hopen, wrap_of_lt (by omega)]
  · simp only [frameEnd, _100MHz_to_ps]
    rw [wrap_of_lt hfit, wrap_of_lt (by omega)]

/-! ## Frame gate and malformed events -/

/-- C1: when the only block of a raw event decodes to a header with `t0 = false`
or with shutter close before shutter open, `Converting` returns false and
leaves the output event as it was (no hit, no plane, no field), whatever the
payload words are, and the result is the same for every `decodeFrame`, which
is never consulted. -/
theorem rejected_frame_not_converted (dec : Decoder) (ev : RawEvent) (d2 : StandardEvent)
    (conf : Configuration) (block : List Nat) (hdr : Header)
    (hb : ev.blocks = [block]) (hw : block.length % 4 = 0)
    (hh : dec.decodeHeader (rawdataOf block) = .ok hdr)
    (hrej : hdr.t0 = false ∨ hdr.ts_sh_close < hdr.ts_sh_open) :
    Converting dec (.raw ev) d2 conf = (.returned false, d2) ∧
    pushedHits d2 (Converting dec (.raw ev) d2 conf).2 = [] ∧
    ∀ decodeFrame2 : List Nat → Nat → Except String pearydata,
      Converting { dec with decodeFrame := decodeFrame2 } (.raw ev) d2 conf =
        (.returned false, d2) := by
  refine ⟨Converting_rejected dec ev d2 conf block hdr hb hw hh hrej, ?_, ?_⟩
  · rw [Converting_rejected dec ev d2 conf block hdr hb hw hh hrej]
    simp [pushedHits, hitsOf]
  · intro decodeFrame2
    exact Converting_rejected _ ev d2 conf block hdr hb hw hh hrej

theorem rejected_frame_not_converted_witness :
    Converting sampleDecoder (.raw (eventOfWords [0, 200, 100, 1, 3, 1, 7, 7, 7])) blankEvent
        defaultConf = (.returned false, blankEvent) ∧
    pushedHits blankEvent (Converting sampleDecoder
        (.raw (eventOfWords [0, 200, 100, 1, 3, 1, 7, 7, 7])) blankEvent defaultConf).2 = [] ∧
    ∀ decodeFrame2 : List Nat → Nat → Except String pearydata,
      Converting { sampleDecoder with decodeFrame := decodeFrame2 }
        (.raw (eventOfWords [0, 200, 100, 1, 3, 1, 7, 7, 7])) blankEvent defaultConf =
        (.returned false, blankEvent) :=
  rejected_frame_not_converted sampleDecoder (eventOfWords [0, 200, 100, 1, 3, 1, 7, 7, 7])
    blankEvent defaultConf (bytesOfSmall [0, 200, 100, 1, 3, 1, 7, 7, 7])
    ⟨0, 200, 100, 1, 3, true⟩ rfl (by decide) rfl (Or.inr (by decide))

/-- C7: a raw event whose number of blocks is not exactly one makes `Converting`
return false with the output event unchanged; this holds for every decoder, so
neither `decodeHeader` nor `decodeFrame` takes part. -/
theorem wrong_block_count_skipped (dec : Decoder) (ev : RawEvent) (d2 : StandardEvent)
    (conf : Configuration) (hn : ev.NumBlocks ≠ 1) :
    Converting dec (.raw ev) d2 conf = (.returned false, d2) := by
  simp [Converting, hn]

theorem wrong_block_count_skipped_witness :
    Converting sampleDecoder (.raw ⟨5, [bytesOfSmall [0, 100, 200, 1, 0, 1],
        bytesOfSmall [0, 100, 200, 2, 0, 1]], [("run", "1")]⟩) blankEvent defaultConf =
      (.returned false, blankEvent) :=
  wrong_block_count_skipped sampleDecoder _ blankEvent defaultConf (by decide)

/-- C8: for an accepted frame on which `decodeFrame` throws, the exception
leaves `Converting` (it returns neither true nor false) and the output event is
as it was before the call. -/
theorem decoder_failure_propagates (dec : Decoder) (ev : RawEvent) (d2 : StandardEvent)
    (conf : Configuration) (block : List Nat) (hdr : Header) (what : String)
    (hb : ev.blocks = [block]) (hw : block.length % 4 = 0)
    (hh : dec.decodeHeader (rawdataOf block) = .ok hdr)
    (hacc : accepted hdr) (hlen : 6 ≤ (rawdataOf block).length)
    (hf : dec.decodeFrame ((rawdataOf block).drop 6) (acq_mode conf) = .error what) :
    Converting dec (.raw ev) d2 conf = (.threw what, d2) ∧
    (∀ b : Bool, (Converting dec (.raw ev) d2 conf).1 ≠ .returned b) := by
  have h := Converting_frame_throws dec ev d2 conf block hdr what hb hw hh hacc hlen hf
  refine ⟨h, ?_⟩
  intro b
  rw [h]
  simp

theorem decoder_failure_propagates_witness :
    Converting sampleDecoder (.raw (eventOfWords [0, 100, 200, 1, 3, 1, 7, 7, 7])) blankEvent
        (confMode 255) = (.threw "unsupported acquisition mode", blankEvent) ∧
    (∀ b : Bool, (Converting sampleDecoder (.raw (eventOfWords [0, 100, 200, 1, 3, 1, 7, 7, 7]))
        blankEvent (confMode 255)).1 ≠ .returned b) :=
  decoder_failure_propagates sampleDecoder (eventOfWords [0, 100, 200, 1, 3, 1, 7, 7, 7])
    blankEvent (confMode 255) (bytesOfSmall [0, 100, 200, 1, 3, 1, 7, 7, 7])
    ⟨0, 100, 200, 1, 3, true⟩ "unsupported acquisition mode" rfl (by decide) rfl (by decide) (by decide) rfl

/-! ## Hit emission -/

/-- C10: for an accepted frame the hits pushed are the decoded records in
iteration order, with exactly the records whose data is zero dropped and every
other record turned into (column, row, ToT, timestamp) with its own column and
row; their number is the number of records with non-zero data, one plane is
added and `Converting` returns true. -/
theorem hit_emission_filter_then_map (dec : Decoder) (ev : RawEvent) (d2 : StandardEvent)
    (conf : Configuration) (block : List Nat) (hdr : Header) (frame : pearydata)
    (hb : ev.blocks = [block]) (hw : block.length % 4 = 0)
    (hh : dec.decodeHeader (rawdataOf block) = .ok hdr)
    (hacc : accepted hdr) (hlen : 6 ≤ (rawdataOf block).length)
    (hf : dec.decodeFrame ((rawdataOf block).drop 6) (acq_mode conf) = .ok frame) :
    (Converting dec (.raw ev) d2 conf).1 = .returned true ∧
    (Converting dec (.raw ev) d2 conf).2.planes =
      d2.planes ++ [{ id := plane_id conf, type := "Caribou", sensor := "H2M",
                      xsize := 64, ysize := 16,
                      hits := pushedHits d2 (Converting dec (.raw ev) d2 conf).2 }] ∧
    pushedHits d2 (Converting dec (.raw ev) d2 conf).2 =
      (frame.filter (fun e => e.2.data ≠ 0)).map (fun e =>
        ⟨e.1.1, e.1.2, e.2.tot,
          pixelTimestamp dec (frameStart dec hdr) (frameEnd dec hdr) e.2⟩) ∧
    (pushedHits d2 (Converting dec (.raw ev) d2 conf).2).length =
      frame.countP (fun e => e.2.data ≠ 0) := by
  have hp := pushedHits_frame_ok dec ev d2 conf block hdr frame hb hw hh hacc hlen hf
  have hc := Converting_frame_ok dec ev d2 conf block hdr frame hb hw hh hacc hlen hf
  refine ⟨by rw [hc], ?_, hp, ?_⟩
  · rw [hp, hc]
    simp only [(copyTags_planes _ _).1, framePlane]
  · rw [hp, List.length_map, hitRecords, List.countP_eq_length_filter]

theorem hit_emission_filter_then_map_witness :
    (Converting sampleDecoder (.raw (eventOfWords [0, 100, 200, 1, 3, 1, 7, 0, 9])) blankEvent
      defaultConf).1 = .returned true ∧
    pushedHits blankEvent (Converting sampleDecoder
      (.raw (eventOfWords [0, 100, 200, 1, 3, 1, 7, 0, 9])) blankEvent defaultConf).2 =
      [⟨0, 0, 7, 1930000⟩, ⟨2, 0, 9, 1910000⟩] :=
  have h := hit_emission_filter_then_map sampleDecoder
    (eventOfWords [0, 100, 200, 1, 3, 1, 7, 0, 9]) blankEvent defaultConf
    (bytesOfSmall [0, 100, 200, 1, 3, 1, 7, 0, 9]) ⟨0, 100, 200, 1, 3, true⟩
    [((0, 0), ⟨7, 1, 7, 7⟩), ((1, 0), ⟨0, 1, 0, 0⟩), ((2, 0), ⟨9, 1, 9, 9⟩)]
    rfl (by decide) rfl (by decide) (by decide) rfl
  ⟨h.1, h.2.2.1.trans (by decide)⟩

/-! ## The declared length -/

/-- C9: the payload handed to `decodeFrame` is the words of the block after
the first six (a run depends on `decodeFrame` only through its result on those
words and the configured mode), and two runs on blocks with the same payload
words whose headers agree in shutter open, shutter close, frame id and `t0`,
whatever their `length` and trigger timestamp, end the same way with the same
planes and hits, begin and end time and event number. -/
theorem declared_length_is_advisory (dec : Decoder) (ev1 ev2 : RawEvent) (d2 : StandardEvent)
    (conf : Configuration) (block1 block2 : List Nat) (hdr1 hdr2 : Header)
    (hb1 : ev1.blocks = [block1]) (hb2 : ev2.blocks = [block2])
    (hw1 : block1.length % 4 = 0) (hw2 : block2.length % 4 = 0)
    (hh1 : dec.decodeHeader (rawdataOf block1) = .ok hdr1)
    (hh2 : dec.decodeHeader (rawdataOf block2) = .ok hdr2)
    (hlen1 : 6 ≤ (rawdataOf block1).length) (hlen2 : 6 ≤ (rawdataOf block2).length)
    (hpay : (rawdataOf block1).drop 6 = (rawdataOf block2).drop 6)
    (hopen : hdr1.ts_sh_open = hdr2.ts_sh_open) (hclose : hdr1.ts_sh_close = hdr2.ts_sh_close)
    (hid : hdr1.frameID = hdr2.frameID) (ht0 : hdr1.t0 = hdr2.t0) :
    (∀ decodeFrame2 : List Nat → Nat → Except String pearydata,
      decodeFrame2 ((rawdataOf block1).drop 6) (acq_mode conf) =
        dec.decodeFrame ((rawdataOf block1).drop 6) (acq_mode conf) →
      Converting { dec with decodeFrame := decodeFrame2 } (.raw ev1) d2 conf =
        Converting dec (.raw ev1) d2 conf) ∧
    (Converting dec (.raw ev1) d2 conf).1 = (Converting dec (.raw ev2) d2 conf).1 ∧
    (Converting dec (.raw ev1) d2 conf).2.planes = (Converting dec (.raw ev2) d2 conf).2.planes ∧
    pushedHits d2 (Converting dec (.raw ev1) d2 conf).2 =
      pushedHits d2 (Converting dec (.raw ev2) d2 conf).2 ∧
    (Converting dec (.raw ev1) d2 conf).2.timeBegin =
      (Converting dec (.raw ev2) d2 conf).2.timeBegin ∧
    (Converting dec (.raw ev1) d2 conf).2.timeEnd =
      (Converting dec (.raw ev2) d2 conf).2.timeEnd ∧
    (Converting dec (.raw ev1) d2 conf).2.eventN =
      (Converting dec (.raw ev2) d2 conf).2.eventN := by
  have hfs : frameStart dec hdr1 = frameStart dec hdr2 := by simp [frameStart, hopen]
  have hfe : frameEnd dec hdr1 = frameEnd dec hdr2 := by simp [frameEnd, hclose]
  by_cases hacc : accepted hdr1
  · have hacc2 : accepted hdr2 := by
      unfold accepted at hacc ⊢
      rw [← hopen, ← hclose, ← ht0]; exact hacc
    cases hf : dec.decodeFrame ((rawdataOf block1).drop 6) (acq_mode conf) with
    | error what =>
      have h1 := Converting_frame_throws dec ev1 d2 conf block1 hdr1 what hb1 hw1 hh1 hacc hlen1 hf
      have h2 := Converting_frame_throws dec ev2 d2 conf block2 hdr2 what hb2 hw2 hh2 hacc2 hlen2
        (hpay ▸ hf)
      refine ⟨?_, by rw [h1, h2], by rw [h1, h2], by rw [h1, h2], by rw [h1, h2],
        by rw [h1, h2], by rw [h1, h2]⟩
      intro decodeFrame2 h
      rw [h1]
      exact Converting_frame_throws _ ev1 d2 conf block1 hdr1 what hb1 hw1 hh1 hacc hlen1 h
    | ok frame =>
      have h1 := Converting_frame_ok dec ev1 d2 conf block1 hdr1 frame hb1 hw1 hh1 hacc hlen1 hf
      have h2 := Converting_frame_ok dec ev2 d2 conf block2 hdr2 frame hb2 hw2 hh2 hacc2 hlen2
        (hpay ▸ hf)
      have hpl : framePlane dec conf hdr1 frame = framePlane dec conf hdr2 frame := by
        simp [framePlane, hfs, hfe]
      refine ⟨?_, by rw [h1, h2], ?_, ?_, ?_, ?_, ?_⟩
      · intro decodeFrame2 h
        rw [h1]
        have h3 := Converting_frame_ok { dec with decodeFrame := decodeFrame2 } ev1 d2 conf
          block1 hdr1 frame hb1 hw1 hh1 hacc hlen1 h
        rw [h3]
        rfl
      · rw [h1, h2]; simp only [(copyTags_planes _ _).1, hpl]
      · rw [h1, h2]; simp only [pushedHits, (copyTags_planes _ _).1, hpl]
      · rw [h1, h2]; simp only [(copyTags_planes _ _).2.1, hfs]
      · rw [h1, h2]; simp only [(copyTags_planes _ _).2.2.1, hfe]
      · rw [h1, h2]; simp only [(copyTags_planes _ _).2.2.2.1, hid]
  · have hrej1 : hdr1.t0 = false ∨ hdr1.ts_sh_close < hdr1.ts_sh_open := by
      unfold accepted at hacc
      by_cases h : hdr1.t0 = true
      · right; exact Nat.lt_of_not_le (fun hle => hacc ⟨h, hle⟩)
      · left; simpa using h
    have hrej2 : hdr2.t0 = false ∨ hdr2.ts_sh_close < hdr2.ts_sh_open := by
      rw [← hopen, ← hclose, ← ht0]; exact hrej1
    have h1 := Converting_rejected dec ev1 d2 conf block1 hdr1 hb1 hw1 hh1 hrej1
    have h2 := Converting_rejected dec ev2 d2 conf block2 hdr2 hb2 hw2 hh2 hrej2
    refine ⟨?_, by rw [h1, h2], by rw [h1, h2], by rw [h1, h2], by rw [h1, h2],
      by rw [h1, h2], by rw [h1, h2]⟩
    intro decodeFrame2 _
    rw [h1]
    exact Converting_rejected _ ev1 d2 conf block1 hdr1 hb1 hw1 hh1 hrej1

theorem declared_length_is_advisory_witness :
    (Converting sampleDecoder (.raw (eventOfWords [0, 100, 200, 1, 3, 1, 7, 0, 9])) blankEvent
        defaultConf).1 =
      (Converting sampleDecoder (.raw (eventOfWords [55, 100, 200, 1, 99, 1, 7, 0, 9])) blankEvent
        defaultConf).1 ∧
    pushedHits blankEvent (Converting sampleDecoder
        (.raw (eventOfWords [0, 100, 200, 1, 3, 1, 7, 0, 9])) blankEvent defaultConf).2 =
      pushedHits blankEvent (Converting sampleDecoder
        (.raw (eventOfWords [55, 100, 200, 1, 99, 1, 7, 0, 9])) blankEvent defaultConf).2 :=
  have h := declared_length_is_advisory sampleDecoder
    (eventOfWords [0, 100, 200, 1, 3, 1, 7, 0, 9]) (eventOfWords [55, 100, 200, 1, 99, 1, 7, 0, 9])
    blankEvent defaultConf (bytesOfSmall [0, 100, 200, 1, 3, 1, 7, 0, 9])
    (bytesOfSmall [55, 100, 200, 1, 99, 1, 7, 0, 9]) ⟨0, 100, 200, 1, 3, true⟩
    ⟨55, 100, 200, 1, 99, true⟩ rfl rfl (by decide) (by decide) rfl rfl (by decide) (by decide)
    rfl rfl rfl rfl rfl
  ⟨h.2.1, h.2.2.2.1⟩

/-! ## Zero suppression -/

/-- C2, as stated, fails: a record whose data is 5 and whose ToT is 0 passes the
test `GetData() == 0` and is pushed with ToT 0. -/
theorem hit_with_zero_tot_is_pushed :
    (Converting (fixedDecoder ⟨0, 100, 200, 1, 1, true⟩ [((3, 5), ⟨5, 1, 5, 0⟩)] 64 64)
      (.raw headerOnlyEvent) blankEvent defaultConf).1 = .returned true ∧
    pushedHits blankEvent
      (Converting (fixedDecoder ⟨0, 100, 200, 1, 1, true⟩ [((3, 5), ⟨5, 1, 5, 0⟩)] 64 64)
        (.raw headerOnlyEvent) blankEvent defaultConf).2 = [⟨3, 5, 0, 1950000⟩] ∧
    ¬ (∀ hit ∈ pushedHits blankEvent
        (Converting (fixedDecoder ⟨0, 100, 200, 1, 1, true⟩ [((3, 5), ⟨5, 1, 5, 0⟩)] 64 64)
          (.raw headerOnlyEvent) blankEvent defaultConf).2, hit.tot ≠ 0) := by
  decide

/-- C2, amended: every hit pushed for an accepted frame is made from a decoded
record whose data value is not zero, with that record's column, row and ToT;
so the pushed ToT is not zero whenever every record with non-zero data has a
non-zero ToT. -/
theorem pushed_hits_have_nonzero_data (dec : Decoder) (ev : RawEvent) (d2 : StandardEvent)
    (conf : Configuration) (block : List Nat) (hdr : Header) (frame : pearydata)
    (hb : ev.blocks = [block]) (hw : block.length % 4 = 0)
    (hh : dec.decodeHeader (rawdataOf block) = .ok hdr)
    (hacc : accepted hdr) (hlen : 6 ≤ (rawdataOf block).length)
    (hf : dec.decodeFrame ((rawdataOf block).drop 6) (acq_mode conf) = .ok frame) :
    (∀ hit ∈ pushedHits d2 (Converting dec (.raw ev) d2 conf).2,
      ∃ e ∈ frame, e.2.data ≠ 0 ∧ hit.col = e.1.1 ∧ hit.row = e.1.2 ∧ hit.tot = e.2.tot) ∧
    ((∀ e ∈ frame, e.2.data ≠ 0 → e.2.tot ≠ 0) →
      ∀ hit ∈ pushedHits d2 (Converting dec (.raw ev) d2 conf).2, hit.tot ≠ 0) := by
  have hp := pushedHits_frame_ok dec ev d2 conf block hdr frame hb hw hh hacc hlen hf
  have key : ∀ hit ∈ pushedHits d2 (Converting dec (.raw ev) d2 conf).2,
      ∃ e ∈ frame, e.2.data ≠ 0 ∧ hit.col = e.1.1 ∧ hit.row = e.1.2 ∧ hit.tot = e.2.tot := by
    intro hit hhit
    rw [hp] at hhit
    obtain ⟨e, he, rfl⟩ := List.mem_map.mp hhit
    have he2 : e ∈ frame ∧ e.2.data ≠ 0 := by simpa [hitRecords] using he
    exact ⟨e, he2.1, he2.2, rfl, rfl, rfl⟩
  refine ⟨key, ?_⟩
  intro hall hit hhit
  obtain ⟨e, he, hd, _, _, ht⟩ := key hit hhit
  rw [ht]
  exact hall e he hd

theorem pushed_hits_have_nonzero_data_witness :
    accepted ⟨0, 100, 200, 1, 3, true⟩ ∧
    6 ≤ (rawdataOf (bytesOfSmall [0, 100, 200, 1, 3, 1, 7, 0, 9])).length ∧
    ∀ hit ∈ pushedHits blankEvent (Converting sampleDecoder
        (.raw (eventOfWords [0, 100, 200, 1, 3, 1, 7, 0, 9])) blankEvent defaultConf).2,
      hit.tot ≠ 0 :=
  ⟨by decide, by decide,
   (pushed_hits_have_nonzero_data sampleDecoder
      (eventOfWords [0, 100, 200, 1, 3, 1, 7, 0, 9]) blankEvent defaultConf
      (bytesOfSmall [0, 100, 200, 1, 3, 1, 7, 0, 9]) ⟨0, 100, 200, 1, 3, true⟩
      [((0, 0), ⟨7, 1, 7, 7⟩), ((1, 0), ⟨0, 1, 0, 0⟩), ((2, 0), ⟨9, 1, 9, 9⟩)]
      rfl (by decide) rfl (by decide) (by decide) rfl).2 (by decide)⟩

/-! ## Timestamps -/

/-- C3, as stated, fails: with shutter close at tick 1 and arrival counters 1
and 2, the second hit gets `10000 - 20000` reduced modulo `2 ^ 64`, which is
neither the claimed difference nor below the timestamp of the first hit. -/
theorem toa_timestamp_wraps_below_zero :
    emitted (fixedDecoder ⟨0, 0, 1, 1, 2, true⟩
        [((0, 0), ⟨1, 1, 1, 1⟩), ((1, 0), ⟨2, 1, 2, 2⟩)] 64 64)
      headerOnlyEvent blankEvent defaultConf
        [((0, 0), ⟨1, 1, 1, 1⟩), ((1, 0), ⟨2, 1, 2, 2⟩)] =
      [(⟨0, 0, 1, 0⟩, ((0, 0), ⟨1, 1, 1, 1⟩)),
       (⟨1, 0, 2, 18446744073709541616⟩, ((1, 0), ⟨2, 1, 2, 2⟩))] ∧
    ¬ (∀ p ∈ emitted (fixedDecoder ⟨0, 0, 1, 1, 2, true⟩
          [((0, 0), ⟨1, 1, 1, 1⟩), ((1, 0), ⟨2, 1, 2, 2⟩)] 64 64)
        headerOnlyEvent blankEvent defaultConf
          [((0, 0), ⟨1, 1, 1, 1⟩), ((1, 0), ⟨2, 1, 2, 2⟩)],
        (p.1.timestamp : Int) = (1 * 10000 : Int) - (p.2.2.toa * 10000 : Int)) ∧
    ¬ (∀ p ∈ emitted (fixedDecoder ⟨0, 0, 1, 1, 2, true⟩
          [((0, 0), ⟨1, 1, 1, 1⟩), ((1, 0), ⟨2, 1, 2, 2⟩)] 64 64)
        headerOnlyEvent blankEvent defaultConf
          [((0, 0), ⟨1, 1, 1, 1⟩), ((1, 0), ⟨2, 1, 2, 2⟩)],
       ∀ q ∈ emitted (fixedDecoder ⟨0, 0, 1, 1, 2, true⟩
          [((0, 0), ⟨1, 1, 1, 1⟩), ((1, 0), ⟨2, 1, 2, 2⟩)] 64 64)
        headerOnlyEvent blankEvent defaultConf
          [((0, 0), ⟨1, 1, 1, 1⟩), ((1, 0), ⟨2, 1, 2, 2⟩)],
        p.2.2.toa ≤ q.2.2.toa → q.1.timestamp ≤ p.1.timestamp) := by
  decide

/-- C3, amended: for an accepted frame, a hit made from a ToA-mode record whose
arrival counter times 10000 fits its type and does not exceed the frame end
has timestamp `frameEnd - arrival * 10000`; among such records a larger arrival
counter never gives a larger timestamp; and the frame end is
`shutter_close * 10000` when that product fits its type. -/
theorem toa_timestamp_within_frame (dec : Decoder) (ev : RawEvent) (d2 : StandardEvent)
    (conf : Configuration) (block : List Nat) (hdr : Header) (frame : pearydata)
    (hb : ev.blocks = [block]) (hw : block.length % 4 = 0)
    (hh : dec.decodeHeader (rawdataOf block) = .ok hdr)
    (hacc : accepted hdr) (hlen : 6 ≤ (rawdataOf block).length)
    (hf : dec.decodeFrame ((rawdataOf block).drop 6) (acq_mode conf) = .ok frame) :
    (∀ p ∈ emitted dec ev d2 conf frame, p.2.2.mode = dec.ACQ_MODE_TOA →
      p.2.2.toa * 10000 < 2 ^ dec.toaBits → p.2.2.toa * 10000 ≤ frameEnd dec hdr →
      p.1.timestamp = frameEnd dec hdr - p.2.2.toa * 10000) ∧
    (∀ p ∈ emitted dec ev d2 conf frame, ∀ q ∈ emitted dec ev d2 conf frame,
      p.2.2.mode = dec.ACQ_MODE_TOA → q.2.2.mode = dec.ACQ_MODE_TOA →
      p.2.2.toa ≤ q.2.2.toa →
      q.2.2.toa * 10000 < 2 ^ dec.toaBits → q.2.2.toa * 10000 ≤ frameEnd dec hdr →
      q.1.timestamp ≤ p.1.timestamp) ∧
    (dec.tsBits ≤ 64 → hdr.ts_sh_close * 10000 < 2 ^ dec.tsBits →
      frameEnd dec hdr = hdr.ts_sh_close * 10000) := by
  have hend : frameEnd dec hdr < 2 ^ 64 := wrap_lt 64 _
  have one : ∀ p ∈ emitted dec ev d2 conf frame, p.2.2.mode = dec.ACQ_MODE_TOA →
      p.2.2.toa * 10000 < 2 ^ dec.toaBits → p.2.2.toa * 10000 ≤ frameEnd dec hdr →
      p.1.timestamp = frameEnd dec hdr - p.2.2.toa * 10000 := by
    intro p hp hmode hfit hle
    have hm := (mem_emitted dec ev d2 conf block hdr frame hb hw hh hacc hlen hf p hp).2.2
    rw [hm]
    exact pixelTimestamp_toa dec _ _ p.2.2 hmode hfit hle hend
  refine ⟨one, ?_, ?_⟩
  · intro p hp q hq hpm hqm hpq hfit hle
    have hq1 := one q hq hqm hfit hle
    have hp1 := one p hp hpm (by omega) (by omega)
    omega
  · intro hw hfit
    exact (frame_times_exact dec hdr hacc.2 hw hfit).2

theorem toa_timestamp_within_frame_witness :
    accepted ⟨0, 100, 200, 1, 1, true⟩ ∧
    6 ≤ (rawdataOf (bytesOfSmall [0, 100, 200, 1, 1, 1, 50])).length ∧
    ∀ p ∈ emitted sampleDecoder (eventOfWords [0, 100, 200, 1, 1, 1, 50]) blankEvent defaultConf
        [((0, 0), ⟨50, 1, 50, 50⟩)],
      p.1.timestamp = 1500000 :=
  ⟨by decide, by decide, fun p hp =>
    ((toa_timestamp_within_frame sampleDecoder (eventOfWords [0, 100, 200, 1, 1, 1, 50])
      blankEvent defaultConf (bytesOfSmall [0, 100, 200, 1, 1, 1, 50]) ⟨0, 100, 200, 1, 1, true⟩
      [((0, 0), ⟨50, 1, 50, 50⟩)] rfl (by decide) rfl (by decide) (by decide) rfl).1 p hp
      (by revert p; decide) (by revert p; decide) (by revert p; decide)).trans
      (by revert p; decide)⟩

/-- C4, as stated, fails: with both shutter timestamps at `10 ^ 15` ticks the
frame start and end are `10 ^ 19` ps, their sum exceeds `2 ^ 64`, and the hit
gets half of the wrapped sum instead of `10 ^ 19`. -/
theorem tot_timestamp_sum_wraps :
    (Converting (fixedDecoder ⟨0, 1000000000000000, 1000000000000000, 1, 1, true⟩
        [((3, 5), ⟨7, 0, 0, 7⟩)] 64 64)
      (.raw headerOnlyEvent) blankEvent defaultConf).2.timeBegin = 10000000000000000000 ∧
    (Converting (fixedDecoder ⟨0, 1000000000000000, 1000000000000000, 1, 1, true⟩
        [((3, 5), ⟨7, 0, 0, 7⟩)] 64 64)
      (.raw headerOnlyEvent) blankEvent defaultConf).2.timeEnd = 10000000000000000000 ∧
    pushedHits blankEvent
      (Converting (fixedDecoder ⟨0, 1000000000000000, 1000000000000000, 1, 1, true⟩
          [((3, 5), ⟨7, 0, 0, 7⟩)] 64 64)
        (.raw headerOnlyEvent) blankEvent defaultConf).2 = [⟨3, 5, 7, 776627963145224192⟩] ∧
    (10000000000000000000 + 10000000000000000000) / 2 ≠ 776627963145224192 := by
  decide

/-- C4, amended: for an accepted frame, every hit made from a record that is
not in ToA mode has the timestamp `((frameStart + frameEnd) mod 2 ^ 64) / 2`,
whatever the address and values of the record; this is
`(frameStart + frameEnd) / 2` whenever the sum is below `2 ^ 64`. -/
theorem tot_timestamp_is_frame_centre (dec : Decoder) (ev : RawEvent) (d2 : StandardEvent)
    (conf : Configuration) (block : List Nat) (hdr : Header) (frame : pearydata)
    (hb : ev.blocks = [block]) (hw : block.length % 4 = 0)
    (hh : dec.decodeHeader (rawdataOf block) = .ok hdr)
    (hacc : accepted hdr) (hlen : 6 ≤ (rawdataOf block).length)
    (hf : dec.decodeFrame ((rawdataOf block).drop 6) (acq_mode conf) = .ok frame) :
    (∀ p ∈ emitted dec ev d2 conf frame, p.2.2.mode ≠ dec.ACQ_MODE_TOA →
      p.1.timestamp = (frameStart dec hdr + frameEnd dec hdr) % 2 ^ 64 / 2) ∧
    (frameStart dec hdr + frameEnd dec hdr < 2 ^ 64 →
      ∀ p ∈ emitted dec ev d2 conf frame, p.2.2.mode ≠ dec.ACQ_MODE_TOA →
        p.1.timestamp = (frameStart dec hdr + frameEnd dec hdr) / 2) := by
  have one : ∀ p ∈ emitted dec ev d2 conf frame, p.2.2.mode ≠ dec.ACQ_MODE_TOA →
      p.1.timestamp = (frameStart dec hdr + frameEnd dec hdr) % 2 ^ 64 / 2 := by
    intro p hp hmode
    have hm := (mem_emitted dec ev d2 conf block hdr frame hb hw hh hacc hlen hf p hp).2.2
    rw [hm]
    exact pixelTimestamp_tot dec _ _ p.2.2 hmode
  refine ⟨one, ?_⟩
  intro hsum p hp hmode
  rw [one p hp hmode, Nat.mod_eq_of_lt hsum]

theorem tot_timestamp_is_frame_centre_witness :
    pushedHits blankEvent (Converting
        (fixedDecoder ⟨0, 100, 200, 1, 1, true⟩ [((3, 5), ⟨7, 0, 0, 7⟩)] 64 64)
        (.raw headerOnlyEvent) blankEvent defaultConf).2 = [⟨3, 5, 7, 1500000⟩] ∧
    ∀ p ∈ emitted (fixedDecoder ⟨0, 100, 200, 1, 1, true⟩ [((3, 5), ⟨7, 0, 0, 7⟩)] 64 64)
        headerOnlyEvent blankEvent defaultConf [((3, 5), ⟨7, 0, 0, 7⟩)],
      p.2.2.mode ≠ 1 →
      p.1.timestamp =
        (frameStart (fixedDecoder ⟨0, 100, 200, 1, 1, true⟩ [((3, 5), ⟨7, 0, 0, 7⟩)] 64 64)
            ⟨0, 100, 200, 1, 1, true⟩ +
          frameEnd (fixedDecoder ⟨0, 100, 200, 1, 1, true⟩ [((3, 5), ⟨7, 0, 0, 7⟩)] 64 64)
            ⟨0, 100, 200, 1, 1, true⟩) / 2 :=
  ⟨by decide,
   (tot_timestamp_is_frame_centre
      (fixedDecoder ⟨0, 100, 200, 1, 1, true⟩ [((3, 5), ⟨7, 0, 0, 7⟩)] 64 64)
      headerOnlyEvent blankEvent defaultConf headerOnlyBlock ⟨0, 100, 200, 1, 1, true⟩
      [((3, 5), ⟨7, 0, 0, 7⟩)] rfl (by decide) rfl (by decide) (by decide) rfl).2 (by decide)⟩

/-- C5, as stated, fails: the products wrap.  In 64-bit arithmetic a shutter
close at 1844674407370956 ticks gives the end time 8384 ps, and in 32-bit
arithmetic a shutter close at 429497 ticks gives 2704 ps; either is not the
product and lies before the begin time 10000 ps of the accepted frame. -/
theorem frame_time_product_wraps :
    ((Converting (fixedDecoder ⟨0, 1, 1844674407370956, 1, 0, true⟩ [] 64 64)
        (.raw headerOnlyEvent) blankEvent defaultConf).1 = .returned true ∧
      (Converting (fixedDecoder ⟨0, 1, 1844674407370956, 1, 0, true⟩ [] 64 64)
        (.raw headerOnlyEvent) blankEvent defaultConf).2.timeBegin = 10000 ∧
      (Converting (fixedDecoder ⟨0, 1, 1844674407370956, 1, 0, true⟩ [] 64 64)
        (.raw headerOnlyEvent) blankEvent defaultConf).2.timeEnd = 8384 ∧
      8384 ≠ 1844674407370956 * 10000) ∧
    ((Converting (fixedDecoder ⟨0, 1, 429497, 1, 0, true⟩ [] 32 32)
        (.raw headerOnlyEvent) blankEvent defaultConf).1 = .returned true ∧
      (Converting (fixedDecoder ⟨0, 1, 429497, 1, 0, true⟩ [] 32 32)
        (.raw headerOnlyEvent) blankEvent defaultConf).2.timeBegin = 10000 ∧
      (Converting (fixedDecoder ⟨0, 1, 429497, 1, 0, true⟩ [] 32 32)
        (.raw headerOnlyEvent) blankEvent defaultConf).2.timeEnd = 2704 ∧
      2704 ≠ 429497 * 10000) := by
  decide

/-- C5, amended: for an accepted frame the begin and end time set on the output
event are `shutter_open * 10000` and `shutter_close * 10000` reduced to the
width in which the product is evaluated; when that width is at most 64 bits
and `shutter_close * 10000` fits it, they are the exact products and the end
time is not before the begin time. -/
theorem frame_times_in_picoseconds (dec : Decoder) (ev : RawEvent) (d2 : StandardEvent)
    (conf : Configuration) (block : List Nat) (hdr : Header) (frame : pearydata)
    (hb : ev.blocks = [block]) (hw : block.length % 4 = 0)
    (hh : dec.decodeHeader (rawdataOf block) = .ok hdr)
    (hacc : accepted hdr) (hlen : 6 ≤ (rawdataOf block).length)
    (hf : dec.decodeFrame ((rawdataOf block).drop 6) (acq_mode conf) = .ok frame) :
    (Converting dec (.raw ev) d2 conf).1 = .returned true ∧
    (Converting dec (.raw ev) d2 conf).2.timeBegin =
      hdr.ts_sh_open * 10000 % 2 ^ dec.tsBits % 2 ^ 64 ∧
    (Converting dec (.raw ev) d2 conf).2.timeEnd =
      hdr.ts_sh_close * 10000 % 2 ^ dec.tsBits % 2 ^ 64 ∧
    (dec.tsBits ≤ 64 → hdr.ts_sh_close * 10000 < 2 ^ dec.tsBits →
      (Converting dec (.raw ev) d2 conf).2.timeBegin = hdr.ts_sh_open * 10000 ∧
      (Converting dec (.raw ev) d2 conf).2.timeEnd = hdr.ts_sh_close * 10000 ∧
      (Converting dec (.raw ev) d2 conf).2.timeBegin ≤
        (Converting dec (.raw ev) d2 conf).2.timeEnd) := by
  have hc := Converting_frame_ok dec ev d2 conf block hdr frame hb hw hh hacc hlen hf
  have hb1 : (Converting dec (.raw ev) d2 conf).2.timeBegin = frameStart dec hdr := by
    rw [hc]; simp only [(copyTags_planes _ _).2.1]
  have he1 : (Converting dec (.raw ev) d2 conf).2.timeEnd = frameEnd dec hdr := by
    rw [hc]; simp only [(copyTags_planes _ _).2.2.1]
  refine ⟨by rw [hc], by rw [hb1]; rfl, by rw [he1]; rfl, ?_⟩
  intro hw hfit
  have hx := frame_times_exact dec hdr hacc.2 hw hfit
  rw [hb1, he1, hx.1, hx.2]
  exact ⟨rfl, rfl, Nat.mul_le_mul_right _ hacc.2⟩

theorem frame_times_in_picoseconds_witness :
    (Converting sampleDecoder (.raw (eventOfWords [0, 100, 200, 1, 1, 1, 7])) blankEvent
      defaultConf).2.timeBegin = 1000000 ∧
    (Converting sampleDecoder (.raw (eventOfWords [0, 100, 200, 1, 1, 1, 7])) blankEvent
      defaultConf).2.timeEnd = 2000000 :=
  have h := (frame_times_in_picoseconds sampleDecoder (eventOfWords [0, 100, 200, 1, 1, 1, 7])
    blankEvent defaultConf (bytesOfSmall [0, 100, 200, 1, 1, 1, 7]) ⟨0, 100, 200, 1, 1, true⟩
    [((0, 0), ⟨7, 1, 7, 7⟩)] rfl (by decide) rfl (by decide) (by decide) rfl).2.2.2 (by decide) (by decide)
  ⟨h.1, h.2.1⟩

/-! ## Truncated header -/

/-- C6: a single block of fewer than 24 bytes is not screened.  When its length
is a multiple of four the converter hands the short buffer to `decodeHeader`:
an exception of the decoder leaves the call, a header that passes the gate
leads to the erasure of six words from a vector that holds fewer, and only a
header that fails the gate gives false.  When its length is not a multiple of
four the bytes are copied past the end of the word vector. -/
theorem truncated_header_not_screened (dec : Decoder) (ev : RawEvent) (d2 : StandardEvent)
    (conf : Configuration) (block : List Nat)
    (hb : ev.blocks = [block]) (hshort : block.length < 24) :
    (rawdataOf block).length < 6 ∧
    (block.length % 4 = 0 →
      Converting dec (.raw ev) d2 conf =
        match dec.decodeHeader (rawdataOf block) with
        | .error what => (.threw what, d2)
        | .ok hdr =>
          if hdr.t0 = false ∨ hdr.ts_sh_close < hdr.ts_sh_open then (.returned false, d2)
          else (.undefinedBehaviour, d2)) ∧
    (block.length % 4 ≠ 0 → Converting dec (.raw ev) d2 conf = (.undefinedBehaviour, d2)) := by
  have hl : (rawdataOf block).length < 6 := by
    rw [rawdataOf_length block.length block rfl]; omega
  have hnot : ¬ 6 ≤ (rawdataOf block).length := by omega
  refine ⟨hl, ?_, ?_⟩
  · intro hw
    simp only [Converting, RawEvent.NumBlocks, RawEvent.GetBlock, hb, List.length_singleton,
      if_true, List.getD_cons_zero, copyBlock, hw, eraseHeader, hnot, if_false]
  · intro hw
    simp only [Converting, RawEvent.NumBlocks, RawEvent.GetBlock, hb, List.length_singleton,
      if_true, List.getD_cons_zero, copyBlock, hw, if_false]

theorem truncated_header_not_screened_witness :
    Converting sampleDecoder (.raw (eventOfWords [1, 2])) blankEvent defaultConf =
      (.threw "header needs six words", blankEvent) ∧
    Converting (fixedDecoder ⟨0, 100, 200, 1, 1, true⟩ [] 64 64) (.raw (eventOfWords [1, 2]))
      blankEvent defaultConf = (.undefinedBehaviour, blankEvent) ∧
    Converting sampleDecoder (.raw ⟨0, [[1, 0, 0]], []⟩) blankEvent defaultConf =
      (.undefinedBehaviour, blankEvent) :=
  ⟨(truncated_header_not_screened sampleDecoder (eventOfWords [1, 2]) blankEvent defaultConf
      (bytesOfSmall [1, 2]) rfl (by decide)).2.1 (by decide),
   (truncated_header_not_screened (fixedDecoder ⟨0, 100, 200, 1, 1, true⟩ [] 64 64)
      (eventOfWords [1, 2]) blankEvent defaultConf (bytesOfSmall [1, 2]) rfl (by decide)).2.1
      (by decide),
   (truncated_header_not_screened sampleDecoder ⟨0, [[1, 0, 0]], []⟩ blankEvent defaultConf
      [1, 0, 0] rfl (by decide)).2.2 (by decide)⟩

end H2M
